import Mathlib

/-!
# Verification of the live chart reconciliation engine

A shallow embedding, in Lean 4, of the core logic of a browser-based trading
dashboard: the data merge layer for candles, the bounded kline buffer of the
market-data WebSocket hook, the indicator reconciliation pass of the chart
component (series registry, scale allocation, RSI threshold annotations),
the kline/indicator timestamp join, the absent-value filters, the stale
response handling, the historical-data sort, and the viewport synchronizer.

Each definition is translated from the corresponding TypeScript source
function; JavaScript numbers that may be `NaN` are modelled by `JsNum`,
values that may additionally be `null` by `IndVal`, and `undefined` results
by `Option`.
-/

namespace ChartVerify

/-- A JavaScript number as it matters to the indicator pipeline: either an
ordinary (finite) numeric value, modelled as a rational, or `NaN`.
`NaN` is distinct from `null` and from `undefined`, and satisfies
`NaN !== null` and `NaN !== undefined`. -/
inductive JsNum where
  | nan : JsNum
  | num : ℚ → JsNum
deriving DecidableEq, Repr

/-- An entry of a backend indicator array of TypeScript type
`(number | null)[]`: either `null` or a JavaScript number. -/
inductive IndVal where
  | inull : IndVal
  | inum : JsNum → IndVal
deriving DecidableEq, Repr

/-! ## Data Merge Layer (claim C1)

The chart component applies an incremental candle update by calling
`seriesInstanceRef.current.update(lastCandleUpdate)`
(`KlineChart` real-time update effect; the update object is produced by
`newSocket.onmessage` from the WebSocket frame).  The merge rule itself
executes inside the external `lightweight-charts` library, whose source is
not part of this repository. -/

/-- One OHLC candle of the merged series, `time` in epoch seconds
(`open` is a Lean keyword, hence the field name `open_`). -/
structure Candle where
  time : Int
  open_ : ℚ
  high : ℚ
  low : ℚ
  close : ℚ
deriving DecidableEq, Repr

/-- Modelled from the spec: the Data Merge Layer rule for one incremental
update (`series.update` of the external charting library, which is not in
the repository; only its caller `KlineChart` is).  Quoting the spec: if
`time` equals the last candle's `time`, overwrite that last candle in place
(same index); if `time` is greater than the last candle's `time`, append a
new candle; if `time` is less than the last candle's `time`, discard the
update silently.  On an empty series the update simply becomes the first
candle. -/
def mergeUpdate (series : List Candle) (u : Candle) : List Candle :=
  match series.getLast? with
  | none => [u]
  | some last =>
    if u.time = last.time then series.dropLast ++ [u]
    else if last.time < u.time then series ++ [u]
    else series

/-- The times of a candle series, in order. -/
def candleTimes (series : List Candle) : List Int :=
  series.map Candle.time

lemma candleTimes_append (s t : List Candle) :
    candleTimes (s ++ t) = candleTimes s ++ candleTimes t := by
  simp [candleTimes]

lemma mergeUpdate_of_eq (s : List Candle) (u : Candle) (h : s ≠ [])
    (ht : u.time = (s.getLast h).time) :
    mergeUpdate s u = s.dropLast ++ [u] := by
  unfold mergeUpdate
  rw [List.getLast?_eq_getLast s h]
  simp [ht]

lemma mergeUpdate_of_gt (s : List Candle) (u : Candle) (h : s ≠ [])
    (ht : (s.getLast h).time < u.time) :
    mergeUpdate s u = s ++ [u] := by
  unfold mergeUpdate
  rw [List.getLast?_eq_getLast s h]
  have h1 : ¬ u.time = (s.getLast h).time := by omega
  simp [h1, ht]

lemma mergeUpdate_of_lt (s : List Candle) (u : Candle) (h : s ≠ [])
    (ht : u.time < (s.getLast h).time) :
    mergeUpdate s u = s := by
  unfold mergeUpdate
  rw [List.getLast?_eq_getLast s h]
  have h1 : ¬ u.time = (s.getLast h).time := by omega
  have h2 : ¬ (s.getLast h).time < u.time := by omega
  simp [h1, h2]

/-- Strict time-sortedness is preserved by appending a candle later than the
last one. -/
lemma chain'_append_single {l : List Int} {x : Int}
    (hl : l.Chain' (· < ·)) (hx : ∀ y, l.getLast? = some y → y < x) :
    (l ++ [x]).Chain' (· < ·) := by
  apply List.Chain'.append hl (List.chain'_singleton x)
  intro y hy z hz
  simp at hz
  subst hz
  exact hx y hy

/-- `C1`: For every incremental candle update applied to a non-empty merged
series: if the update's time equals the last candle's time, the last candle
is overwritten in place and the series length is unchanged; if the update's
time is greater, a new candle is appended; if the update's time is less,
the update is silently discarded and the series is unchanged (no error
value exists — `mergeUpdate` is total).  Moreover the merge preserves
strictly-ascending time order.  (The merge rule is modelled from the spec,
as it executes inside the external charting library.) -/
theorem C1_merge_update_rule (s : List Candle) (u : Candle) (h : s ≠ []) :
    (u.time = (s.getLast h).time →
        mergeUpdate s u = s.dropLast ++ [u] ∧
        (mergeUpdate s u).length = s.length) ∧
    ((s.getLast h).time < u.time → mergeUpdate s u = s ++ [u]) ∧
    (u.time < (s.getLast h).time → mergeUpdate s u = s) ∧
    ((candleTimes s).Chain' (· < ·) →
        (candleTimes (mergeUpdate s u)).Chain' (· < ·)) := by
  refine ⟨?_, mergeUpdate_of_gt s u h, mergeUpdate_of_lt s u h, ?_⟩
  · intro ht
    refine ⟨mergeUpdate_of_eq s u h ht, ?_⟩
    rw [mergeUpdate_of_eq s u h ht]
    simp
    have := List.length_pos_of_ne_nil h
    omega
  · intro hs
    rcases lt_trichotomy u.time (s.getLast h).time with hlt | heq | hgt
    · rw [mergeUpdate_of_lt s u h hlt]; exact hs
    · rw [mergeUpdate_of_eq s u h heq, candleTimes_append]
      have hsplit : candleTimes s.dropLast ++ [(s.getLast h).time] =
          candleTimes s := by
        have h1 : s.dropLast ++ [s.getLast h] = s :=
          List.dropLast_append_getLast h
        calc candleTimes s.dropLast ++ [(s.getLast h).time]
            = candleTimes s.dropLast ++ candleTimes [s.getLast h] := by
              simp [candleTimes]
          _ = candleTimes (s.dropLast ++ [s.getLast h]) :=
              (candleTimes_append _ _).symm
          _ = candleTimes s := by rw [h1]
      apply chain'_append_single
      · exact hs.prefix (hsplit ▸ (List.prefix_append _ _))
      · intro y hy
        have hchain : (candleTimes s.dropLast ++
            [(s.getLast h).time]).Chain' (· < ·) := hsplit ▸ hs
        have := (List.chain'_append.mp hchain).2.2 y hy (s.getLast h).time
          (by simp)
        simpa [heq] using this
    · rw [mergeUpdate_of_gt s u h hgt, candleTimes_append]
      apply chain'_append_single hs
      intro y hy
      have hlast : (candleTimes s).getLast? = some (s.getLast h).time := by
        have : candleTimes s ≠ [] := by simp [candleTimes, h]
        rw [List.getLast?_eq_getLast _ this]
        simp [candleTimes, List.getLast_map]
      rw [hlast] at hy
      have he : y = (s.getLast h).time := by
        have := Option.some.inj hy
        omega
      subst he
      simpa using hgt

/-- Witness for `C1_merge_update_rule` at a concrete series and update. -/
theorem C1_merge_update_rule_witness :
    mergeUpdate [⟨10, 1, 2, 0, 1⟩, ⟨20, 1, 2, 0, 1⟩] ⟨20, 3, 4, 2, 3⟩ =
      [⟨10, 1, 2, 0, 1⟩, ⟨20, 3, 4, 2, 3⟩] :=
  ((C1_merge_update_rule [⟨10, 1, 2, 0, 1⟩, ⟨20, 1, 2, 0, 1⟩]
      ⟨20, 3, 4, 2, 3⟩ (by decide)).1 (by decide)).1

/-! ## Bounded kline buffer (claim C3)

`useMarketDataWebSocket` keeps at most `MAX_KLINES_IN_STATE` klines in its
state.  Three operations replace the kline array wholesale: the WebSocket
`ws.onmessage` handler for a `kline_with_indicators` message, the REST
`pollData` fallback, and `setInitialData`. -/

/-- A raw kline as delivered by the backend (`types/marketData.Kline`):
millisecond timestamp and OHLC values. -/
structure Kline where
  timestamp : Int
  open_ : ℚ
  high : ℚ
  low : ℚ
  close : ℚ
deriving DecidableEq, Repr

/-- `MAX_KLINES_IN_STATE` from `useMarketDataWebSocket`. -/
def MAX_KLINES_IN_STATE : Nat := 500

/-- JavaScript `array.slice(-n)`: the suffix of the `n` most recent
elements (the whole array when it is shorter than `n`). -/
def sliceLast (n : Nat) (l : List α) : List α :=
  l.drop (l.length - n)

/-- The kline portion of the hook state (`MarketDataState.klines`). -/
structure MarketDataState where
  klines : List Kline
deriving DecidableEq, Repr

/-- The three kinds of payload that replace the retained kline array. -/
inductive MarketEvent where
  | wsKlineMessage : List Kline → MarketEvent
  | pollResult : List Kline → MarketEvent
  | initialData : List Kline → MarketEvent

/-- The kline payload carried by a market-data event. -/
def MarketEvent.payload : MarketEvent → List Kline
  | .wsKlineMessage ks => ks
  | .pollResult ks => ks
  | .initialData ks => ks

/-- One market-data state transition of `useMarketDataWebSocket`:
`ws.onmessage` truncates the message klines to the last
`MAX_KLINES_IN_STATE` only when they exceed the bound
(`if (updatedKlines.length > MAX_KLINES_IN_STATE) { updatedKlines =
updatedKlines.slice(-MAX_KLINES_IN_STATE); }`), while `pollData` and
`setInitialData` always apply `.slice(-MAX_KLINES_IN_STATE)`. -/
def marketStep (s : MarketDataState) (ev : MarketEvent) : MarketDataState :=
  match ev with
  | .wsKlineMessage ks =>
    if MAX_KLINES_IN_STATE < ks.length
    then { s with klines := sliceLast MAX_KLINES_IN_STATE ks }
    else { s with klines := ks }
  | .pollResult ks => { s with klines := sliceLast MAX_KLINES_IN_STATE ks }
  | .initialData ks => { s with klines := sliceLast MAX_KLINES_IN_STATE ks }

/-- The initial hook state: an empty kline array. -/
def marketInit : MarketDataState := ⟨[]⟩

lemma sliceLast_length (n : Nat) (l : List α) :
    (sliceLast n l).length = min n l.length := by
  simp [sliceLast]
  omega

lemma marketStep_length_le (s : MarketDataState) (ev : MarketEvent) :
    ((marketStep s ev).klines).length ≤ MAX_KLINES_IN_STATE := by
  cases ev with
  | wsKlineMessage ks =>
    by_cases hc : MAX_KLINES_IN_STATE < ks.length
    · simp [marketStep, hc, sliceLast_length]
    · simp [marketStep, hc]
      omega
  | pollResult ks => simp [marketStep, sliceLast_length]
  | initialData ks => simp [marketStep, sliceLast_length]

/-- `C3`: feeding any sequence of kline payloads (initial load, WebSocket
message, or poll result) into the market-data state, the retained kline
array never exceeds `MAX_KLINES_IN_STATE = 500` elements; a payload larger
than the bound is truncated from the front to exactly its most recent 500
elements; and the retained array is always a suffix of the payload last
applied. -/
theorem C3_bounded_buffer :
    (∀ evs : List MarketEvent,
        ((evs.foldl marketStep marketInit).klines).length ≤
          MAX_KLINES_IN_STATE) ∧
    (∀ (s : MarketDataState) (ev : MarketEvent),
        MAX_KLINES_IN_STATE < ev.payload.length →
        (marketStep s ev).klines =
          ev.payload.drop (ev.payload.length - MAX_KLINES_IN_STATE) ∧
        ((marketStep s ev).klines).length = MAX_KLINES_IN_STATE) ∧
    (∀ (s : MarketDataState) (ev : MarketEvent),
        (marketStep s ev).klines <:+ ev.payload) := by
  refine ⟨?_, ?_, ?_⟩
  · intro evs
    have key : ∀ (l : List MarketEvent) (s : MarketDataState),
        s.klines.length ≤ MAX_KLINES_IN_STATE →
        ((l.foldl marketStep s).klines).length ≤ MAX_KLINES_IN_STATE := by
      intro l
      induction l with
      | nil => intro s hs; exact hs
      | cons e t ih =>
        intro s _
        exact ih (marketStep s e) (marketStep_length_le s e)
    exact key evs marketInit (by simp [marketInit])
  · intro s ev hlen
    cases ev with
    | wsKlineMessage ks =>
      constructor
      · simp [MarketEvent.payload] at hlen
        simp [marketStep, hlen, sliceLast, MarketEvent.payload]
      · have := marketStep_length_le s (.wsKlineMessage ks)
        simp [MarketEvent.payload] at hlen
        simp [marketStep, hlen, sliceLast_length]
        omega
    | pollResult ks =>
      simp [MarketEvent.payload] at hlen
      refine ⟨by simp [marketStep, sliceLast, MarketEvent.payload], ?_⟩
      simp [marketStep, sliceLast_length]
      omega
    | initialData ks =>
      simp [MarketEvent.payload] at hlen
      refine ⟨by simp [marketStep, sliceLast, MarketEvent.payload], ?_⟩
      simp [marketStep, sliceLast_length]
      omega
  · intro s ev
    cases ev with
    | wsKlineMessage ks =>
      by_cases hc : MAX_KLINES_IN_STATE < ks.length
      · simp [marketStep, hc, sliceLast, MarketEvent.payload]
        exact List.drop_suffix _ _
      · simp [marketStep, hc, MarketEvent.payload]
    | pollResult ks =>
      simp [marketStep, sliceLast, MarketEvent.payload]
      exact List.drop_suffix _ _
    | initialData ks =>
      simp [marketStep, sliceLast, MarketEvent.payload]
      exact List.drop_suffix _ _

/-- A 501-element payload used to exercise the truncation branch. -/
def oversizedKlines : List Kline :=
  (List.range 501).map fun (i : ℕ) => ⟨(i : ℤ), 0, 0, 0, 0⟩

lemma oversizedKlines_length : oversizedKlines.length = 501 := by
  rw [oversizedKlines, List.length_map, List.length_range]

/-- Witness for `C3_bounded_buffer` at a concrete oversized payload. -/
theorem C3_bounded_buffer_witness :
    (marketStep marketInit (.wsKlineMessage oversizedKlines)).klines =
      oversizedKlines.drop 1 := by
  have h : MAX_KLINES_IN_STATE <
      (MarketEvent.wsKlineMessage oversizedKlines).payload.length := by
    rw [MarketEvent.payload, oversizedKlines_length]
    norm_num [MAX_KLINES_IN_STATE]
  have h2 := (C3_bounded_buffer.2.1 marketInit
    (.wsKlineMessage oversizedKlines) h).1
  rw [MarketEvent.payload, oversizedKlines_length] at h2
  simpa [MAX_KLINES_IN_STATE] using h2

/-! ## Historical kline formatting and sort (claim C10)

`DashboardPage.loadKlinesData` maps the raw REST klines to candlestick
points and sorts them by numeric time before they are handed to the chart
(`.sort((a, b) => Number(a.time) - Number(b.time))`); the first draft of
`KlineChart` applies the same map-then-sort to its historical data before
calling `setData`. -/

/-- A raw kline from the REST service (`marketDataService.KlineData`):
millisecond `open_time` plus OHLC values (delivered as strings and passed
through `parseFloat`; the parsed values are carried here directly, since
string parsing plays no role in the ordering). -/
structure ApiKlineData where
  open_time : ℤ
  open_ : ℚ
  high : ℚ
  low : ℚ
  close : ℚ
deriving DecidableEq, Repr

/-- A candlestick point handed to the drawing surface; `time` is the
epoch-second timestamp `open_time / 1000` (a JavaScript float division,
modelled exactly on rationals). -/
structure CandlePoint where
  time : ℚ
  open_ : ℚ
  high : ℚ
  low : ℚ
  close : ℚ
deriving DecidableEq, Repr

/-- The map step of `loadKlinesData`: `time: open_time / 1000` plus the
parsed OHLC fields. -/
def mapKlineToCandlestick (k : ApiKlineData) : CandlePoint :=
  { time := (k.open_time : ℚ) / 1000, open_ := k.open_, high := k.high,
    low := k.low, close := k.close }

/-- `loadKlinesData`'s `formattedData`: map, then sort ascending by
numeric time (`(a, b) => Number(a.time) - Number(b.time)`; JavaScript's
sort is stable, like `mergeSort`). -/
def loadKlinesFormat (raw : List ApiKlineData) : List CandlePoint :=
  (raw.map mapKlineToCandlestick).mergeSort
    (fun a b => decide (a.time ≤ b.time))

lemma loadKlinesFormat_perm (raw : List ApiKlineData) :
    (loadKlinesFormat raw).Perm (raw.map mapKlineToCandlestick) :=
  List.mergeSort_perm _ _

lemma loadKlinesFormat_pairwise_le (raw : List ApiKlineData) :
    (loadKlinesFormat raw).Pairwise (fun a b => a.time ≤ b.time) := by
  have h := @List.sorted_mergeSort CandlePoint
    (fun a b => decide (a.time ≤ b.time))
    (fun a b c hab hbc => by
      simp at hab hbc ⊢
      exact le_trans hab hbc)
    (fun a b => by
      simp
      exact le_total a.time b.time)
    (raw.map mapKlineToCandlestick)
  exact h.imp (fun hab => by simpa using hab)

lemma loadKlinesFormat_pairwise_ne (raw : List ApiKlineData)
    (hd : (raw.map ApiKlineData.open_time).Pairwise (· ≠ ·)) :
    (loadKlinesFormat raw).Pairwise (fun a b => a.time ≠ b.time) := by
  have hmap : (raw.map mapKlineToCandlestick).Pairwise
      (fun a b => a.time ≠ b.time) := by
    rw [List.pairwise_map]
    rw [List.pairwise_map] at hd
    refine hd.imp ?_
    intro a b hab
    simp only [mapKlineToCandlestick]
    intro he
    apply hab
    have : (a.open_time : ℚ) = b.open_time := by
      field_simp at he
      exact_mod_cast he
    exact_mod_cast this
  exact ((loadKlinesFormat_perm raw).pairwise_iff
    (fun hab => Ne.symm hab)).mpr hmap

lemma loadKlinesFormat_sorted_lt (raw : List ApiKlineData)
    (hd : (raw.map ApiKlineData.open_time).Pairwise (· ≠ ·)) :
    (loadKlinesFormat raw).Pairwise (fun a b => a.time < b.time) :=
  ((loadKlinesFormat_pairwise_le raw).and
    (loadKlinesFormat_pairwise_ne raw hd)).imp
    (fun h => lt_of_le_of_ne h.1 h.2)

/-- `C10`: for every historical kline payload whose `open_time`s are
pairwise distinct, the candle array handed to the drawing surface is
sorted in strictly ascending numeric time order, is exactly a permutation
of the mapped payload, and does not depend on the order in which the
server returned the klines. -/
theorem C10_sorted_before_setData (raw : List ApiKlineData)
    (hd : (raw.map ApiKlineData.open_time).Pairwise (· ≠ ·)) :
    ((loadKlinesFormat raw).map CandlePoint.time).Chain' (· < ·) ∧
    (loadKlinesFormat raw).Perm (raw.map mapKlineToCandlestick) ∧
    (∀ raw' : List ApiKlineData, raw.Perm raw' →
        loadKlinesFormat raw' = loadKlinesFormat raw) := by
  refine ⟨?_, loadKlinesFormat_perm raw, ?_⟩
  · rw [List.chain'_map]
    exact (loadKlinesFormat_sorted_lt raw hd).chain'
  · intro raw' hperm
    haveI : IsAntisymm CandlePoint (fun a b => a.time < b.time) :=
      ⟨fun a b hab hba => absurd hba (lt_asymm hab)⟩
    have hd' : (raw'.map ApiKlineData.open_time).Pairwise (· ≠ ·) :=
      ((hperm.map ApiKlineData.open_time).pairwise_iff
        (fun hab => Ne.symm hab)).mp hd
    refine List.eq_of_perm_of_sorted ?_
      (loadKlinesFormat_sorted_lt raw' hd')
      (loadKlinesFormat_sorted_lt raw hd)
    exact ((loadKlinesFormat_perm raw').trans
      ((hperm.map mapKlineToCandlestick).symm)).trans
      (loadKlinesFormat_perm raw).symm

/-- Witness for `C10_sorted_before_setData` on a concrete out-of-order
payload. -/
theorem C10_sorted_before_setData_witness :
    ((loadKlinesFormat [⟨2000, 5, 6, 4, 5⟩, ⟨1000, 1, 2, 0, 1⟩]).map
        CandlePoint.time).Chain' (· < ·) :=
  (C10_sorted_before_setData [⟨2000, 5, 6, 4, 5⟩, ⟨1000, 1, 2, 0, 1⟩]
    (by decide)).1

/-! ## Kline/indicator timestamp join (claims C7, C8)

`DashboardPage.fetchChartData` (the draft wired to the two-pane chart)
joins the backend indicator arrays to each kline by `findIndex` over the
indicator timestamp list, reading values through `getValue`, which turns
`null`, out-of-bounds and missing arrays into `undefined`. -/

/-- `getValue` from `fetchChartData`:
`(arr && index >= 0 && index < arr.length && arr[index] !== null &&
arr[index] !== undefined) ? arr[index] as number : undefined`.
A missing array (an `undefined` field access) is modelled as `none`;
indices produced by `findIndex` are natural numbers, so `index >= 0`
always holds here. -/
def getValue (arr : Option (List IndVal)) (index : ℕ) : Option JsNum :=
  match arr with
  | none => none
  | some a =>
    if h : index < a.length then
      match a.get ⟨index, h⟩ with
      | .inull => none
      | .inum x => some x
    else none

/-- One entry of `indicators.bollinger_bands`, searched by its `params`
string. -/
structure BollingerBandsEntry where
  params : String
  upper_band : List IndVal
  middle_band : List IndVal
  lower_band : List IndVal
deriving DecidableEq, Repr

/-- One entry of `indicators.macd`, searched by its `params` string. -/
structure MACDEntry where
  params : String
  macd_line : List IndVal
  signal_line : List IndVal
  histogram : List IndVal
deriving DecidableEq, Repr

/-- The indicator payload (`types/marketData.IndicatorData`): a timestamp
list plus optional per-family tables; `sma`, `ema` and `rsi` are records
keyed by a parameter string (e.g. `sma_20`), modelled as association
lists. -/
structure IndicatorData where
  timestamps : List ℤ
  sma : Option (List (String × List IndVal))
  ema : Option (List (String × List IndVal))
  bollinger_bands : Option (List BollingerBandsEntry)
  macd : Option (List MACDEntry)
  rsi : Option (List (String × List IndVal))
deriving DecidableEq, Repr

/-- One row of `ProcessedChartData`: the candle fields plus the optional
per-timestamp indicator values; `undefined` is `none`.  The later chart
draft extends the interface with `adx` and `atr` (used by its indicator
pane); `fetchChartData` leaves them `undefined`. -/
structure ProcessedChartData where
  time : ℚ
  open_ : ℚ
  high : ℚ
  low : ℚ
  close : ℚ
  ma : Option JsNum
  ema : Option JsNum
  bollingerBands : Option (JsNum × JsNum × JsNum)
  macd : Option (JsNum × JsNum × JsNum)
  rsi : Option JsNum
  adx : Option JsNum
  atr : Option JsNum
deriving DecidableEq, Repr

/-- The per-kline body of `fetchChartData`'s `chartableData` map: find
the indicator index by exact timestamp equality
(`indicatorTimestamps.findIndex(ts => ts === klineTimestampMs)`), then
read each family through `getValue`; when no index matches
(`indicatorIndex === -1`) every indicator field stays `undefined`.
Bollinger values require all three bands present, MACD all three of
line/signal/histogram, exactly as in the source. -/
def processKline (ind : IndicatorData) (k : Kline) : ProcessedChartData :=
  let base : ProcessedChartData :=
    { time := (k.timestamp : ℚ) / 1000, open_ := k.open_, high := k.high,
      low := k.low, close := k.close, ma := none, ema := none,
      bollingerBands := none, macd := none, rsi := none, adx := none,
      atr := none }
  match ind.timestamps.findIdx? (· == k.timestamp) with
  | none => base
  | some i =>
    let maValue := getValue (ind.sma.bind (fun t => t.lookup "sma_20")) i
    let emaValue := getValue (ind.ema.bind (fun t => t.lookup "ema_50")) i
    let relevantBB := ind.bollinger_bands.bind
      (fun l => l.find? (fun bb => bb.params == "20_2.0"))
    let bbValues :=
      match relevantBB with
      | none => none
      | some bb =>
        match getValue (some bb.upper_band) i,
            getValue (some bb.middle_band) i,
            getValue (some bb.lower_band) i with
        | some u, some m, some l => some (u, m, l)
        | _, _, _ => none
    let relevantMACD := ind.macd.bind
      (fun l => l.find? (fun m => m.params == "12_26_9"))
    let macdValues :=
      match relevantMACD with
      | none => none
      | some m =>
        match getValue (some m.macd_line) i,
            getValue (some m.signal_line) i,
            getValue (some m.histogram) i with
        | some ml, some sl, some hg => some (ml, sl, hg)
        | _, _, _ => none
    let rsiValue := getValue (ind.rsi.bind (fun t => t.lookup "rsi_14")) i
    { base with
      ma := maValue
      ema := emaValue
      bollingerBands := bbValues
      macd := macdValues
      rsi := rsiValue }

/-- `fetchChartData`'s `chartableData`: the join applied to every kline. -/
def chartableData (ind : IndicatorData) (klines : List Kline) :
    List ProcessedChartData :=
  klines.map (processKline ind)

/-- `C7`: indicator values are attached to candles only by exact
timestamp equality — a kline whose timestamp has no equal entry in the
indicator timestamp list gets `undefined` for every indicator family
(never an interpolated or carried-forward value), and its row in the
joined array is the bare candle. -/
theorem C7_exact_timestamp_join (ind : IndicatorData) (k : Kline)
    (h : k.timestamp ∉ ind.timestamps) :
    (processKline ind k).ma = none ∧
    (processKline ind k).ema = none ∧
    (processKline ind k).bollingerBands = none ∧
    (processKline ind k).macd = none ∧
    (processKline ind k).rsi = none := by
  have hfind : ind.timestamps.findIdx? (· == k.timestamp) = none := by
    rw [List.findIdx?_eq_none_iff]
    intro x hx
    simp only [beq_eq_false_iff_ne, ne_eq]
    intro he
    exact h (he ▸ hx)
  simp [processKline, hfind]

/-- Witness for `C7_exact_timestamp_join`: a kline at an unmatched
timestamp yields no indicator values even though the payload has values
at neighbouring timestamps. -/
theorem C7_exact_timestamp_join_witness :
    (processKline
      { timestamps := [1000, 3000],
        sma := some [("sma_20", [.inum (.num 5), .inum (.num 6)])],
        ema := none, bollinger_bands := none, macd := none,
        rsi := some [("rsi_14", [.inum (.num 50), .inum (.num 55)])] }
      ⟨2000, 1, 2, 0, 1⟩).rsi = none :=
  (C7_exact_timestamp_join _ ⟨2000, 1, 2, 0, 1⟩ (by decide)).2.2.2.2

/-! ## Absent-value filtering before `setData` (claim C8)

The MA/EMA/Bollinger blocks of the two-pane `KlineChart` draft hand the
drawing surface `data.filter(d => d.ma !== undefined).map(d => ({ time:
d.time, value: d.ma! }))` and the analogous expressions for `ema` and the
three Bollinger bands; `filterMap` combines the presence filter with the
non-null assertion `!`. -/

/-- A `{time, value}` point handed to a line series. -/
structure LinePoint where
  time : ℚ
  value : JsNum
deriving DecidableEq, Repr

/-- `data.filter(d => d.ma !== undefined).map(d => ({time, value: d.ma!}))`. -/
def maSeriesData (data : List ProcessedChartData) : List LinePoint :=
  data.filterMap (fun d => d.ma.map (fun v => ⟨d.time, v⟩))

/-- `data.filter(d => d.ema !== undefined).map(...)`. -/
def emaSeriesData (data : List ProcessedChartData) : List LinePoint :=
  data.filterMap (fun d => d.ema.map (fun v => ⟨d.time, v⟩))

/-- `data.filter(d => d.bollingerBands).map(d => ({time, value:
d.bollingerBands!.upper}))`. -/
def bbUpperSeriesData (data : List ProcessedChartData) : List LinePoint :=
  data.filterMap (fun d => d.bollingerBands.map (fun b => ⟨d.time, b.1⟩))

/-- The middle Bollinger band points. -/
def bbMiddleSeriesData (data : List ProcessedChartData) : List LinePoint :=
  data.filterMap (fun d => d.bollingerBands.map (fun b => ⟨d.time, b.2.1⟩))

/-- The lower Bollinger band points. -/
def bbLowerSeriesData (data : List ProcessedChartData) : List LinePoint :=
  data.filterMap (fun d => d.bollingerBands.map (fun b => ⟨d.time, b.2.2⟩))

/-- A row whose MA value is JavaScript `NaN`: `NaN !== undefined`, so it
passes the presence filter. -/
def nanRow : ProcessedChartData :=
  { time := 1, open_ := 1, high := 2, low := 0, close := 1,
    ma := some .nan, ema := none, bollingerBands := none, macd := none,
    rsi := none, adx := none, atr := none }

/-- `C8` counterexample: the claim says null or NaN values are filtered
out and never handed to the drawing surface, but the presence filter
`d.ma !== undefined` keeps `NaN` (and `getValue` forwards a `NaN` array
entry), so a `NaN` point is passed to `setData`. -/
theorem C8_nan_not_filtered_counterexample :
    maSeriesData [nanRow] = [⟨1, .nan⟩] ∧
    getValue (some [.inum .nan]) 0 = some .nan := by
  constructor <;> rfl

lemma mem_points_of_field (f : ProcessedChartData → Option JsNum)
    (data : List ProcessedChartData) (p : LinePoint)
    (hp : p ∈ data.filterMap (fun d => (f d).map (fun v => ⟨d.time, v⟩))) :
    ∃ d ∈ data, d.time = p.time ∧ f d = some p.value := by
  obtain ⟨d, hd, he⟩ := List.mem_filterMap.mp hp
  cases hf : f d with
  | none => rw [hf] at he; simp at he
  | some v =>
    rw [hf] at he
    simp at he
    exact ⟨d, hd, by rw [← he], by rw [hf, ← he]⟩

/-- `C8` (amended): `null`/`undefined` indicator values are filtered out
before `setData` — every plotted point's value is exactly a present
source value at the same row (so an absent value is never plotted, and in
particular never plotted as zero), and `getValue` maps `null` array
entries to `undefined`; processing is a total function (never throws).
`NaN`, however, is not filtered (see the counterexample). -/
theorem C8_null_values_filtered :
    (∀ (data : List ProcessedChartData) (p : LinePoint),
        p ∈ maSeriesData data →
        ∃ d ∈ data, d.time = p.time ∧ d.ma = some p.value) ∧
    (∀ (data : List ProcessedChartData) (p : LinePoint),
        p ∈ emaSeriesData data →
        ∃ d ∈ data, d.time = p.time ∧ d.ema = some p.value) ∧
    (∀ (data : List ProcessedChartData) (p : LinePoint),
        p ∈ bbUpperSeriesData data →
        ∃ d ∈ data, d.time = p.time ∧
          ∃ b, d.bollingerBands = some b ∧ b.1 = p.value) ∧
    (∀ (data : List ProcessedChartData) (p : LinePoint),
        p ∈ bbMiddleSeriesData data →
        ∃ d ∈ data, d.time = p.time ∧
          ∃ b, d.bollingerBands = some b ∧ b.2.1 = p.value) ∧
    (∀ (data : List ProcessedChartData) (p : LinePoint),
        p ∈ bbLowerSeriesData data →
        ∃ d ∈ data, d.time = p.time ∧
          ∃ b, d.bollingerBands = some b ∧ b.2.2 = p.value) ∧
    (∀ (a : List IndVal) (i : ℕ) (h : i < a.length),
        a.get ⟨i, h⟩ = .inull → getValue (some a) i = none) := by
  refine ⟨?_, ?_, ?_, ?_, ?_, ?_⟩
  · exact fun data p hp => mem_points_of_field (fun d => d.ma) data p hp
  · exact fun data p hp => mem_points_of_field (fun d => d.ema) data p hp
  · intro data p hp
    obtain ⟨d, hd, he⟩ := List.mem_filterMap.mp hp
    cases hf : d.bollingerBands with
    | none => rw [hf] at he; simp at he
    | some b =>
      rw [hf] at he
      simp at he
      exact ⟨d, hd, by rw [← he], b, hf, by rw [← he]⟩
  · intro data p hp
    obtain ⟨d, hd, he⟩ := List.mem_filterMap.mp hp
    cases hf : d.bollingerBands with
    | none => rw [hf] at he; simp at he
    | some b =>
      rw [hf] at he
      simp at he
      exact ⟨d, hd, by rw [← he], b, hf, by rw [← he]⟩
  · intro data p hp
    obtain ⟨d, hd, he⟩ := List.mem_filterMap.mp hp
    cases hf : d.bollingerBands with
    | none => rw [hf] at he; simp at he
    | some b =>
      rw [hf] at he
      simp at he
      exact ⟨d, hd, by rw [← he], b, hf, by rw [← he]⟩
  · intro a i h hnull
    rw [List.get_eq_getElem] at hnull
    simp [getValue, h, hnull]

/-- Witness for `C8_null_values_filtered`: a present point traced back to
its source row, next to a null row that produced no point. -/
theorem C8_null_values_filtered_witness :
    ∃ d ∈ [nanRow, { nanRow with time := 2, ma := some (.num 7) }],
      d.time = (2 : ℚ) ∧ d.ma = some (.num 7) := by
  have h := C8_null_values_filtered.1
    [nanRow, { nanRow with time := 2, ma := some (.num 7) }] ⟨2, .num 7⟩
    (by decide)
  exact h

/-! ## Indicator reconciliation pass (claims C2, C5, C6)

The indicator-chart effect of the later two-pane `KlineChart` draft runs,
on every invocation, the inline MACD block followed by `setupIndicator`
for RSI (with its two threshold price lines), ADX and ATR.  Drawing-
surface handles are modelled as numbers drawn from a persistent counter
and every drawing-surface call is logged as an `Op`. -/

/-- A value axis (`priceScaleId`) of the indicator chart. -/
inductive Axis where
  | left : Axis
  | right : Axis
deriving DecidableEq, Repr

/-- One drawing-surface call issued during a reconciliation pass.  Series
and price lines carry their title and numeric handle; series creation
also records the assigned axis. -/
inductive Op where
  | createSeries : String → ℕ → Axis → Op
  | applyScale : String → ℕ → Axis → Op
  | setData : String → ℕ → Op
  | removeSeries : String → ℕ → Op
  | createLine : String → ℕ → Op
  | removeLine : String → ℕ → Op
deriving DecidableEq, Repr

/-- Does the call create a drawing-surface series (`addLineSeries` /
`addHistogramSeries`)? -/
def Op.isCreateSeries : Op → Bool
  | .createSeries _ _ _ => true
  | _ => false

/-- Does the call remove a drawing-surface series (`removeSeries`)? -/
def Op.isRemoveSeries : Op → Bool
  | .removeSeries _ _ => true
  | _ => false

/-- Does the call create a price line (`createPriceLine`)? -/
def Op.isCreateLine : Op → Bool
  | .createLine _ _ => true
  | _ => false

/-- Does the call remove a price line (`removePriceLine`)? -/
def Op.isRemoveLine : Op → Bool
  | .removeLine _ _ => true
  | _ => false

/-- The title a call refers to. -/
def Op.title : Op → String
  | .createSeries t _ _ => t
  | .applyScale t _ _ => t
  | .setData t _ => t
  | .removeSeries t _ => t
  | .createLine t _ => t
  | .removeLine t _ => t

/-- The per-pass context: the `leftScaleUsed` / `rightScaleUsed` flags
and the `assignedScalesThisRun` record (an association list, newest
binding first), plus the persistent handle counter and the log of
drawing-surface calls issued so far in this pass. -/
structure Ctx where
  leftScaleUsed : Bool
  rightScaleUsed : Bool
  assignedScalesThisRun : List (String × Axis)
  nextId : ℕ
  ops : List Op
deriving DecidableEq, Repr

/-- The scale-assignment block of `setupIndicator`: reuse the axis
already assigned to this title in this pass if any; otherwise take the
preferred axis if free, else whichever axis is free (marking it used),
else fall back to `'left'`; finally record the assignment under the
series title. -/
def allocScale (title : String) (pref : Axis) (c : Ctx) : Axis × Ctx :=
  let (ax, c') :=
    match c.assignedScalesThisRun.lookup title with
    | some ax => (ax, c)
    | none =>
      if pref == Axis.left && !c.leftScaleUsed then
        (Axis.left, { c with leftScaleUsed := true })
      else if pref == Axis.right && !c.rightScaleUsed then
        (Axis.right, { c with rightScaleUsed := true })
      else if !c.leftScaleUsed then
        (Axis.left, { c with leftScaleUsed := true })
      else if !c.rightScaleUsed then
        (Axis.right, { c with rightScaleUsed := true })
      else (Axis.left, c)
  (ax, { c' with assignedScalesThisRun :=
      (title, ax) :: c'.assignedScalesThisRun })

/-- The `lines.forEach` body while the series is visible: remove the
previous price line if the ref cell is set, then create a fresh one and
store it in the cell. -/
def refreshLines : List (String × Option ℕ) → Ctx →
    List (String × Option ℕ) × Ctx
  | [], c => ([], c)
  | (lt, lr) :: rest, c =>
    let c1 := match lr with
      | some lid => { c with ops := c.ops ++ [Op.removeLine lt lid] }
      | none => c
    let newId := c1.nextId
    let c2 := { c1 with
      nextId := c1.nextId + 1
      ops := c1.ops ++ [Op.createLine lt newId] }
    let r := refreshLines rest c2
    ((lt, some newId) :: r.1, r.2)

/-- The `lines.forEach` body on teardown: remove each price line whose
ref cell is set and clear the cell. -/
def removeLines : List (String × Option ℕ) → Ctx →
    List (String × Option ℕ) × Ctx
  | [], c => ([], c)
  | (lt, lr) :: rest, c =>
    let c1 := match lr with
      | some lid => { c with ops := c.ops ++ [Op.removeLine lt lid] }
      | none => c
    let r := removeLines rest c1
    ((lt, none) :: r.1, r.2)

/-- `setupIndicator` from the indicator-chart effect.  When
`show && data.some(dataCheck)`: allocate a scale, create the series if
its ref cell is empty (else retarget it with `applyOptions`), issue
`setData`, and refresh the price lines (the series kinds passed with
lines are line series, so the `seriesType() === 'Line'` guard holds).
Otherwise, if the ref cell is set: remove the price lines first, then
remove the series and clear the cell; with an empty cell, do nothing.
`hasData` stands for `data.some(dataCheck)`, evaluated by the caller. -/
def setupIndicator (show_ : Bool) (hasData : Bool) (title : String)
    (pref : Axis) (ref : Option ℕ) (lineRefs : List (String × Option ℕ))
    (c : Ctx) : Option ℕ × List (String × Option ℕ) × Ctx :=
  if show_ && hasData then
    let a := allocScale title pref c
    let ax := a.1
    let c1 := a.2
    let idc :=
      match ref with
      | none =>
        (c1.nextId, { c1 with
          nextId := c1.nextId + 1
          ops := c1.ops ++ [Op.createSeries title c1.nextId ax] })
      | some id =>
        (id, { c1 with ops := c1.ops ++ [Op.applyScale title id ax] })
    let id := idc.1
    let c2 := idc.2
    let c3 := { c2 with ops := c2.ops ++ [Op.setData title id] }
    let r := refreshLines lineRefs c3
    (some id, r.1, r.2)
  else
    match ref with
    | some id =>
      let r := removeLines lineRefs c
      (none, r.1,
        { r.2 with ops := r.2.ops ++ [Op.removeSeries title id] })
    | none => (ref, lineRefs, c)

/-- `if (!ref.current) ref.current = addSeries({..., priceScaleId}) else
ref.current.applyOptions({priceScaleId}); ref.current.setData(...)` —
the per-series body of the inline MACD block. -/
def ensureSeries (title : String) (ax : Axis) (ref : Option ℕ) (c : Ctx) :
    Option ℕ × Ctx :=
  match ref with
  | none =>
    (some c.nextId, { c with
      nextId := c.nextId + 1
      ops := c.ops ++ [Op.createSeries title c.nextId ax,
        Op.setData title c.nextId] })
  | some id =>
    (some id, { c with ops := c.ops ++ [Op.applyScale title id ax,
      Op.setData title id] })

/-- `if (ref.current) { indicatorChart.removeSeries(ref.current);
ref.current = null; }` — the teardown of the inline MACD block. -/
def removeIfPresent (title : String) (ref : Option ℕ) (c : Ctx) : Ctx :=
  match ref with
  | some id => { c with ops := c.ops ++ [Op.removeSeries title id] }
  | none => c

/-- The inline MACD block of the indicator-chart effect: pick one scale
for the three MACD series (`assignedScalesThisRun['MACD_L'] ||
(!leftScaleUsed ? 'left' : !rightScaleUsed ? 'right' : 'left')`), mark it
used when it was not already assigned, record it under `MACD_L`,
`MACD_S` and `MACD_H`, then create-or-retarget and `setData` each of
line, signal and histogram; when hidden or without data, remove each
present series. -/
def macdBlock (showMACD : Bool) (hasData : Bool)
    (lineRef sigRef histRef : Option ℕ) (c : Ctx) :
    Option ℕ × Option ℕ × Option ℕ × Ctx :=
  if showMACD && hasData then
    let prior := c.assignedScalesThisRun.lookup "MACD_L"
    let macdScale :=
      match prior with
      | some ax => ax
      | none =>
        if !c.leftScaleUsed then Axis.left
        else if !c.rightScaleUsed then Axis.right
        else Axis.left
    let c1 :=
      if macdScale == Axis.left && prior.isNone then
        { c with leftScaleUsed := true }
      else if macdScale == Axis.right && prior.isNone then
        { c with rightScaleUsed := true }
      else c
    let c2 := { c1 with assignedScalesThisRun :=
      ("MACD_H", macdScale) :: ("MACD_S", macdScale) ::
        ("MACD_L", macdScale) :: c1.assignedScalesThisRun }
    let e1 := ensureSeries "MACD" macdScale lineRef c2
    let e2 := ensureSeries "Signal" macdScale sigRef e1.2
    let e3 := ensureSeries "Histogram" macdScale histRef e2.2
    (e1.1, e2.1, e3.1, e3.2)
  else
    let c1 := removeIfPresent "MACD" lineRef c
    let c2 := removeIfPresent "Signal" sigRef c1
    let c3 := removeIfPresent "Histogram" histRef c2
    (none, none, none, c3)

/-- The persistent ref cells of the indicator chart across
reconciliation passes, plus the handle counter. -/
structure IndicatorRefs where
  macdLineSeries : Option ℕ
  macdSignalSeries : Option ℕ
  macdHistogramSeries : Option ℕ
  rsiSeries : Option ℕ
  rsiOverboughtLine : Option ℕ
  rsiOversoldLine : Option ℕ
  adxSeries : Option ℕ
  atrSeries : Option ℕ
  nextId : ℕ
deriving DecidableEq, Repr

/-- All ref cells empty; the chart starts with no indicator series. -/
def emptyRefs : IndicatorRefs :=
  ⟨none, none, none, none, none, none, none, none, 0⟩

/-- The indicator toggle props consumed by the indicator-chart effect. -/
structure Toggles where
  showMACD : Bool
  showRSI : Bool
  showADX : Bool
  showATR : Bool
deriving DecidableEq, Repr

/-- Read a line ref cell back out of `setupIndicator`'s returned list. -/
def getLineRef (l : List (String × Option ℕ)) (k : String) : Option ℕ :=
  match l.lookup k with
  | some v => v
  | none => none

/-- One full run of the indicator-chart effect (one reconciliation
pass): the inline MACD block, then `setupIndicator` for RSI — whose
scale preference is `(leftScaleUsed && assignedScalesThisRun['MACD_L']
=== 'left' && !rightScaleUsed) ? 'right' : 'left'` and which carries the
two threshold price lines — then for ADX and ATR, whose preferences are
evaluated from the used-flags at their call sites
(`!leftScaleUsed ? 'left' : !rightScaleUsed ? 'right' : 'right'`).
Returns the new ref cells and the ops issued during the pass. -/
def runPass (data : List ProcessedChartData) (t : Toggles)
    (s : IndicatorRefs) : IndicatorRefs × List Op :=
  let c0 : Ctx := { leftScaleUsed := false, rightScaleUsed := false
                    assignedScalesThisRun := [], nextId := s.nextId
                    ops := [] }
  let r1 := macdBlock t.showMACD (data.any fun d => d.macd.isSome)
    s.macdLineSeries s.macdSignalSeries s.macdHistogramSeries c0
  let macdL := r1.1
  let macdS := r1.2.1
  let macdH := r1.2.2.1
  let c1 := r1.2.2.2
  let rsiPref : Axis :=
    if c1.leftScaleUsed &&
        (c1.assignedScalesThisRun.lookup "MACD_L" == some Axis.left) &&
        !c1.rightScaleUsed
    then Axis.right else Axis.left
  let r2 := setupIndicator t.showRSI (data.any fun d => d.rsi.isSome)
    "RSI" rsiPref s.rsiSeries
    [("70", s.rsiOverboughtLine), ("30", s.rsiOversoldLine)] c1
  let rsi := r2.1
  let rsiLines := r2.2.1
  let c2 := r2.2.2
  let adxPref : Axis :=
    if !c2.leftScaleUsed then Axis.left
    else if !c2.rightScaleUsed then Axis.right else Axis.right
  let r3 := setupIndicator t.showADX (data.any fun d => d.adx.isSome)
    "ADX" adxPref s.adxSeries [] c2
  let adx := r3.1
  let c3 := r3.2.2
  let atrPref : Axis :=
    if !c3.leftScaleUsed then Axis.left
    else if !c3.rightScaleUsed then Axis.right else Axis.right
  let r4 := setupIndicator t.showATR (data.any fun d => d.atr.isSome)
    "ATR" atrPref s.atrSeries [] c3
  let atr := r4.1
  let c4 := r4.2.2
  ({ macdLineSeries := macdL
     macdSignalSeries := macdS
     macdHistogramSeries := macdH
     rsiSeries := rsi
     rsiOverboughtLine := getLineRef rsiLines "70"
     rsiOversoldLine := getLineRef rsiLines "30"
     adxSeries := adx
     atrSeries := atr
     nextId := c4.nextId }, c4.ops)

/-- Is this axis already marked used in the current pass? -/
def axisUsed (ax : Axis) (c : Ctx) : Bool :=
  match ax with
  | .left => c.leftScaleUsed
  | .right => c.rightScaleUsed

/-- The other of the two value axes. -/
def Axis.other : Axis → Axis
  | .left => .right
  | .right => .left

/-- `C6`: axis allocation for an indicator group (the scale-assignment
block of `setupIndicator`) returns the axis already assigned to that
group in this pass if one exists; otherwise it assigns the preferred axis
if free, else the other axis if free, else falls back to the default
`'left'` when both axes are occupied by other groups. -/
theorem C6_scale_allocation (c : Ctx) (title : String) (pref : Axis) :
    (∀ ax, c.assignedScalesThisRun.lookup title = some ax →
        (allocScale title pref c).1 = ax) ∧
    (c.assignedScalesThisRun.lookup title = none →
        axisUsed pref c = false → (allocScale title pref c).1 = pref) ∧
    (c.assignedScalesThisRun.lookup title = none →
        axisUsed pref c = true → axisUsed pref.other c = false →
        (allocScale title pref c).1 = pref.other) ∧
    (c.assignedScalesThisRun.lookup title = none →
        c.leftScaleUsed = true → c.rightScaleUsed = true →
        (allocScale title pref c).1 = Axis.left) := by
  refine ⟨?_, ?_, ?_, ?_⟩
  · intro ax hl
    simp [allocScale, hl]
  · intro hl hfree
    cases pref <;> simp [allocScale, hl, axisUsed] at hfree ⊢ <;>
      simp [hfree]
  · intro hl hused hfree
    cases pref <;>
      simp [allocScale, hl, axisUsed, Axis.other] at hused hfree ⊢ <;>
      simp [hused, hfree]
  · intro hl hleft hright
    cases pref <;> simp [allocScale, hl, hleft, hright]

/-- Witness for `C6_scale_allocation`: with both axes already used by
other groups, a right-preferring group falls back to the left axis. -/
theorem C6_scale_allocation_witness :
    (allocScale "ATR" Axis.right
      { leftScaleUsed := true, rightScaleUsed := true
        assignedScalesThisRun := [("MACD_L", Axis.left)]
        nextId := 3, ops := [] }).1 = Axis.left :=
  (C6_scale_allocation
    { leftScaleUsed := true, rightScaleUsed := true
      assignedScalesThisRun := [("MACD_L", Axis.left)]
      nextId := 3, ops := [] } "ATR" Axis.right).2.2.2 (by decide) rfl rfl

/-! ### Series-level idempotence of the pass (claim C2) -/

lemma allocScale_ops (title : String) (pref : Axis) (c : Ctx) :
    ((allocScale title pref c).2).ops = c.ops ∧
    ((allocScale title pref c).2).nextId = c.nextId := by
  cases hl : c.assignedScalesThisRun.lookup title <;>
    simp only [allocScale, hl] <;> (try split_ifs) <;> simp

lemma refreshLines_countP (p : Op → Bool)
    (hcl : ∀ t n, p (Op.createLine t n) = false)
    (hrl : ∀ t n, p (Op.removeLine t n) = false) :
    ∀ (ls : List (String × Option ℕ)) (c : Ctx),
      (((refreshLines ls c).2).ops).countP p = (c.ops).countP p := by
  intro ls
  induction ls with
  | nil => intro c; rfl
  | cons head tl ih =>
    intro c
    obtain ⟨lt, lr⟩ := head
    cases lr with
    | none =>
      simp [refreshLines, ih, List.countP_append, List.countP_cons, hcl]
    | some lid =>
      simp [refreshLines, ih, List.countP_append, List.countP_cons,
        hcl, hrl]

lemma removeLines_countP (p : Op → Bool)
    (hrl : ∀ t n, p (Op.removeLine t n) = false) :
    ∀ (ls : List (String × Option ℕ)) (c : Ctx),
      (((removeLines ls c).2).ops).countP p = (c.ops).countP p := by
  intro ls
  induction ls with
  | nil => intro c; rfl
  | cons head tl ih =>
    intro c
    obtain ⟨lt, lr⟩ := head
    cases lr with
    | none => simp [removeLines, ih]
    | some lid =>
      simp [removeLines, ih, List.countP_append, List.countP_cons, hrl]

lemma setupIndicator_countCreateSeries (sh hd : Bool) (ti : String)
    (pf : Axis) (r : Option ℕ) (ls : List (String × Option ℕ)) (c : Ctx) :
    (((setupIndicator sh hd ti pf r ls c).2.2).ops).countP
        Op.isCreateSeries =
      (c.ops).countP Op.isCreateSeries +
        (if (sh && hd) && r.isNone then 1 else 0) := by
  by_cases hc : (sh && hd) = true
  · cases r with
    | none =>
      simp [setupIndicator, hc,
        refreshLines_countP Op.isCreateSeries (fun _ _ => rfl)
          (fun _ _ => rfl),
        List.countP_append, List.countP_cons, Op.isCreateSeries,
        (allocScale_ops ti pf c).1]
    | some id =>
      simp [setupIndicator, hc,
        refreshLines_countP Op.isCreateSeries (fun _ _ => rfl)
          (fun _ _ => rfl),
        List.countP_append, List.countP_cons, Op.isCreateSeries,
        (allocScale_ops ti pf c).1]
  · have hc' : (sh && hd) = false := by simpa using hc
    cases r with
    | none => simp [setupIndicator, hc']
    | some id =>
      simp [setupIndicator, hc',
        removeLines_countP Op.isCreateSeries (fun _ _ => rfl),
        List.countP_append, List.countP_cons, Op.isCreateSeries]

lemma setupIndicator_countRemoveSeries (sh hd : Bool) (ti : String)
    (pf : Axis) (r : Option ℕ) (ls : List (String × Option ℕ)) (c : Ctx) :
    (((setupIndicator sh hd ti pf r ls c).2.2).ops).countP
        Op.isRemoveSeries =
      (c.ops).countP Op.isRemoveSeries +
        (if !(sh && hd) && r.isSome then 1 else 0) := by
  by_cases hc : (sh && hd) = true
  · cases r with
    | none =>
      simp [setupIndicator, hc,
        refreshLines_countP Op.isRemoveSeries (fun _ _ => rfl)
          (fun _ _ => rfl),
        List.countP_append, List.countP_cons, Op.isRemoveSeries,
        (allocScale_ops ti pf c).1]
    | some id =>
      simp [setupIndicator, hc,
        refreshLines_countP Op.isRemoveSeries (fun _ _ => rfl)
          (fun _ _ => rfl),
        List.countP_append, List.countP_cons, Op.isRemoveSeries,
        (allocScale_ops ti pf c).1]
  · have hc' : (sh && hd) = false := by simpa using hc
    cases r with
    | none => simp [setupIndicator, hc']
    | some id =>
      simp [setupIndicator, hc',
        removeLines_countP Op.isRemoveSeries (fun _ _ => rfl),
        List.countP_append, List.countP_cons, Op.isRemoveSeries]

lemma ensureSeries_countCreateSeries (ti : String) (ax : Axis)
    (r : Option ℕ) (c : Ctx) :
    (((ensureSeries ti ax r c).2).ops).countP Op.isCreateSeries =
      (c.ops).countP Op.isCreateSeries + (if r.isNone then 1 else 0) := by
  cases r <;> simp [ensureSeries, List.countP_append, List.countP_cons,
    Op.isCreateSeries]

lemma ensureSeries_countRemoveSeries (ti : String) (ax : Axis)
    (r : Option ℕ) (c : Ctx) :
    (((ensureSeries ti ax r c).2).ops).countP Op.isRemoveSeries =
      (c.ops).countP Op.isRemoveSeries := by
  cases r <;> simp [ensureSeries, List.countP_append, List.countP_cons,
    Op.isRemoveSeries]

lemma removeIfPresent_countCreateSeries (ti : String) (r : Option ℕ)
    (c : Ctx) :
    ((removeIfPresent ti r c).ops).countP Op.isCreateSeries =
      (c.ops).countP Op.isCreateSeries := by
  cases r <;> simp [removeIfPresent, List.countP_append, List.countP_cons,
    Op.isCreateSeries]

lemma removeIfPresent_countRemoveSeries (ti : String) (r : Option ℕ)
    (c : Ctx) :
    ((removeIfPresent ti r c).ops).countP Op.isRemoveSeries =
      (c.ops).countP Op.isRemoveSeries + (if r.isSome then 1 else 0) := by
  cases r <;> simp [removeIfPresent, List.countP_append, List.countP_cons,
    Op.isRemoveSeries]

lemma macdFlagCtx_ops (P Q : Prop) [Decidable P] [Decidable Q] (c : Ctx) :
    (if P then { c with leftScaleUsed := true }
     else if Q then { c with rightScaleUsed := true } else c).ops =
      c.ops := by
  split_ifs <;> rfl

lemma macdBlock_countCreateSeries (sh hd : Bool) (l s h : Option ℕ)
    (c : Ctx) :
    (((macdBlock sh hd l s h c).2.2.2).ops).countP Op.isCreateSeries =
      (c.ops).countP Op.isCreateSeries +
        (if sh && hd then
          ((if l.isNone then 1 else 0) + (if s.isNone then 1 else 0) +
            (if h.isNone then 1 else 0))
         else 0) := by
  by_cases hc : (sh && hd) = true
  · unfold macdBlock
    rw [if_pos hc]
    simp [hc, ensureSeries_countCreateSeries, macdFlagCtx_ops]
    omega
  · have hc' : (sh && hd) = false := by simpa using hc
    unfold macdBlock
    rw [if_neg (by simp [hc'])]
    simp [hc', removeIfPresent_countCreateSeries]

lemma macdBlock_countRemoveSeries (sh hd : Bool) (l s h : Option ℕ)
    (c : Ctx) :
    (((macdBlock sh hd l s h c).2.2.2).ops).countP Op.isRemoveSeries =
      (c.ops).countP Op.isRemoveSeries +
        (if sh && hd then 0
         else ((if l.isSome then 1 else 0) + (if s.isSome then 1 else 0) +
            (if h.isSome then 1 else 0))) := by
  by_cases hc : (sh && hd) = true
  · unfold macdBlock
    rw [if_pos hc]
    simp [hc, ensureSeries_countRemoveSeries, macdFlagCtx_ops]
  · have hc' : (sh && hd) = false := by simpa using hc
    unfold macdBlock
    rw [if_neg (by simp [hc'])]
    simp [hc', removeIfPresent_countRemoveSeries]
    omega

lemma setupIndicator_isSome (sh hd : Bool) (ti : String) (pf : Axis)
    (r : Option ℕ) (ls : List (String × Option ℕ)) (c : Ctx) :
    ((setupIndicator sh hd ti pf r ls c).1).isSome = (sh && hd) := by
  by_cases hc : (sh && hd) = true
  · simp [setupIndicator, hc]
  · have hc' : (sh && hd) = false := by simpa using hc
    cases r <;> simp [setupIndicator, hc']

lemma macdBlock_line_isSome (sh hd : Bool) (l s h : Option ℕ) (c : Ctx) :
    ((macdBlock sh hd l s h c).1).isSome = (sh && hd) := by
  by_cases hc : (sh && hd) = true
  · cases l <;> simp [macdBlock, hc, ensureSeries]
  · have hc' : (sh && hd) = false := by simpa using hc
    simp [macdBlock, hc']

lemma macdBlock_signal_isSome (sh hd : Bool) (l s h : Option ℕ)
    (c : Ctx) :
    ((macdBlock sh hd l s h c).2.1).isSome = (sh && hd) := by
  by_cases hc : (sh && hd) = true
  · cases s <;> simp [macdBlock, hc, ensureSeries]
  · have hc' : (sh && hd) = false := by simpa using hc
    simp [macdBlock, hc']

lemma macdBlock_hist_isSome (sh hd : Bool) (l s h : Option ℕ) (c : Ctx) :
    ((macdBlock sh hd l s h c).2.2.1).isSome = (sh && hd) := by
  by_cases hc : (sh && hd) = true
  · cases h <;> simp [macdBlock, hc, ensureSeries]
  · have hc' : (sh && hd) = false := by simpa using hc
    simp [macdBlock, hc']

lemma runPass_countCreateSeries (data : List ProcessedChartData)
    (t : Toggles) (s : IndicatorRefs) :
    ((runPass data t s).2).countP Op.isCreateSeries =
      (if t.showMACD && data.any (fun d => d.macd.isSome) then
          ((if s.macdLineSeries.isNone then 1 else 0) +
            (if s.macdSignalSeries.isNone then 1 else 0) +
            (if s.macdHistogramSeries.isNone then 1 else 0))
        else 0) +
      (if (t.showRSI && data.any fun d => d.rsi.isSome) &&
          s.rsiSeries.isNone then 1 else 0) +
      (if (t.showADX && data.any fun d => d.adx.isSome) &&
          s.adxSeries.isNone then 1 else 0) +
      (if (t.showATR && data.any fun d => d.atr.isSome) &&
          s.atrSeries.isNone then 1 else 0) := by
  simp only [runPass]
  rw [setupIndicator_countCreateSeries, setupIndicator_countCreateSeries,
    setupIndicator_countCreateSeries, macdBlock_countCreateSeries]
  simp

lemma runPass_countRemoveSeries (data : List ProcessedChartData)
    (t : Toggles) (s : IndicatorRefs) :
    ((runPass data t s).2).countP Op.isRemoveSeries =
      (if t.showMACD && data.any (fun d => d.macd.isSome) then 0
        else ((if s.macdLineSeries.isSome then 1 else 0) +
          (if s.macdSignalSeries.isSome then 1 else 0) +
          (if s.macdHistogramSeries.isSome then 1 else 0))) +
      (if !(t.showRSI && data.any fun d => d.rsi.isSome) &&
          s.rsiSeries.isSome then 1 else 0) +
      (if !(t.showADX && data.any fun d => d.adx.isSome) &&
          s.adxSeries.isSome then 1 else 0) +
      (if !(t.showATR && data.any fun d => d.atr.isSome) &&
          s.atrSeries.isSome then 1 else 0) := by
  simp only [runPass]
  rw [setupIndicator_countRemoveSeries, setupIndicator_countRemoveSeries,
    setupIndicator_countRemoveSeries, macdBlock_countRemoveSeries]
  simp

lemma runPass_refs_isSome (data : List ProcessedChartData) (t : Toggles)
    (s : IndicatorRefs) :
    ((runPass data t s).1.macdLineSeries).isSome =
      (t.showMACD && data.any fun d => d.macd.isSome) ∧
    ((runPass data t s).1.macdSignalSeries).isSome =
      (t.showMACD && data.any fun d => d.macd.isSome) ∧
    ((runPass data t s).1.macdHistogramSeries).isSome =
      (t.showMACD && data.any fun d => d.macd.isSome) ∧
    ((runPass data t s).1.rsiSeries).isSome =
      (t.showRSI && data.any fun d => d.rsi.isSome) ∧
    ((runPass data t s).1.adxSeries).isSome =
      (t.showADX && data.any fun d => d.adx.isSome) ∧
    ((runPass data t s).1.atrSeries).isSome =
      (t.showATR && data.any fun d => d.atr.isSome) := by
  refine ⟨?_, ?_, ?_, ?_, ?_, ?_⟩ <;>
    simp only [runPass] <;>
    simp [macdBlock_line_isSome, macdBlock_signal_isSome,
      macdBlock_hist_isSome, setupIndicator_isSome]

/-- `C2` counterexample: with RSI visible and non-empty data, a second
reconciliation pass with identical `(data, toggles)` does not merely
re-issue `setData` — it removes and re-creates the two RSI threshold
price lines (two `removePriceLine` and two `createPriceLine` calls on
the drawing surface), so the number of additional removals after the
first pass is not zero. -/
theorem C2_second_pass_line_churn_counterexample :
    (((runPass [{ nanRow with rsi := some (JsNum.num 50) }]
        ⟨false, true, false, false⟩
        (runPass [{ nanRow with rsi := some (JsNum.num 50) }]
          ⟨false, true, false, false⟩ emptyRefs).1).2).countP
        Op.isRemoveLine = 2) ∧
    (((runPass [{ nanRow with rsi := some (JsNum.num 50) }]
        ⟨false, true, false, false⟩
        (runPass [{ nanRow with rsi := some (JsNum.num 50) }]
          ⟨false, true, false, false⟩ emptyRefs).1).2).countP
        Op.isCreateLine = 2) := by
  constructor <;> rfl

/-- `C2` (amended): running the reconciliation pass a second time with
identical `(data, toggles)` performs zero additional drawing-surface
series creations and zero series removals — every series handle already
exists (or is already absent), so the second pass only re-issues
`setData`/`applyOptions` on series; the RSI threshold price lines,
however, are removed and re-created on every pass while RSI is visible
(see the counterexample). -/
theorem C2_second_pass_no_series_churn (data : List ProcessedChartData)
    (t : Toggles) (s : IndicatorRefs) :
    ((runPass data t (runPass data t s).1).2).countP
        Op.isCreateSeries = 0 ∧
    ((runPass data t (runPass data t s).1).2).countP
        Op.isRemoveSeries = 0 := by
  obtain ⟨hml, hms, hmh, hr, ha, hat⟩ := runPass_refs_isSome data t s
  have hnone : ∀ (o : Option ℕ), o.isNone = !o.isSome := fun o => by
    cases o <;> rfl
  constructor
  · rw [runPass_countCreateSeries, hnone, hnone, hnone, hnone, hnone,
      hnone, hml, hms, hmh, hr, ha, hat]
    cases hcm : (t.showMACD && data.any fun d => d.macd.isSome) <;>
    cases hcr : (t.showRSI && data.any fun d => d.rsi.isSome) <;>
    cases hca : (t.showADX && data.any fun d => d.adx.isSome) <;>
    cases hct : (t.showATR && data.any fun d => d.atr.isSome) <;>
      simp
  · rw [runPass_countRemoveSeries, hml, hms, hmh, hr, ha, hat]
    cases hcm : (t.showMACD && data.any fun d => d.macd.isSome) <;>
    cases hcr : (t.showRSI && data.any fun d => d.rsi.isSome) <;>
    cases hca : (t.showADX && data.any fun d => d.adx.isSome) <;>
    cases hct : (t.showATR && data.any fun d => d.atr.isSome) <;>
      simp

/-! ### RSI toggle off / toggle on (claim C5) -/

/-- Is the call about the RSI family — its series (title `RSI`) or its
two threshold price lines (titles `70` and `30`)? -/
def Op.isRsiRelated (op : Op) : Bool :=
  op.title == "RSI" || op.title == "70" || op.title == "30"

lemma ensureSeries_filter_rsi (ti : String) (ax : Axis) (r : Option ℕ)
    (c : Ctx)
    (hti : (ti == "RSI" || ti == "70" || ti == "30") = false) :
    (((ensureSeries ti ax r c).2).ops).filter Op.isRsiRelated =
      (c.ops).filter Op.isRsiRelated := by
  cases r <;> simp [ensureSeries, List.filter_append, Op.isRsiRelated,
    Op.title, hti]

lemma removeIfPresent_filter_rsi (ti : String) (r : Option ℕ) (c : Ctx)
    (hti : (ti == "RSI" || ti == "70" || ti == "30") = false) :
    ((removeIfPresent ti r c).ops).filter Op.isRsiRelated =
      (c.ops).filter Op.isRsiRelated := by
  cases r <;> simp [removeIfPresent, List.filter_append, Op.isRsiRelated,
    Op.title, hti]

lemma macdBlock_filter_rsi (sh hd : Bool) (l s h : Option ℕ) (c : Ctx) :
    (((macdBlock sh hd l s h c).2.2.2).ops).filter Op.isRsiRelated =
      (c.ops).filter Op.isRsiRelated := by
  have h1 : (("MACD" : String) == "RSI" || ("MACD" : String) == "70" ||
      ("MACD" : String) == "30") = false := by decide
  have h2 : (("Signal" : String) == "RSI" || ("Signal" : String) == "70" ||
      ("Signal" : String) == "30") = false := by decide
  have h3 : (("Histogram" : String) == "RSI" ||
      ("Histogram" : String) == "70" ||
      ("Histogram" : String) == "30") = false := by decide
  by_cases hc : (sh && hd) = true
  · unfold macdBlock
    rw [if_pos hc]
    rw [ensureSeries_filter_rsi _ _ _ _ h3,
      ensureSeries_filter_rsi _ _ _ _ h2,
      ensureSeries_filter_rsi _ _ _ _ h1]
    simp [macdFlagCtx_ops]
  · have hc' : (sh && hd) = false := by simpa using hc
    unfold macdBlock
    rw [if_neg (by simp [hc'])]
    rw [removeIfPresent_filter_rsi _ _ _ h3,
      removeIfPresent_filter_rsi _ _ _ h2,
      removeIfPresent_filter_rsi _ _ _ h1]

lemma setupIndicator_filter_rsi_noLines (sh hd : Bool) (ti : String)
    (pf : Axis) (r : Option ℕ) (c : Ctx)
    (hti : (ti == "RSI" || ti == "70" || ti == "30") = false) :
    (((setupIndicator sh hd ti pf r [] c).2.2).ops).filter
        Op.isRsiRelated = (c.ops).filter Op.isRsiRelated := by
  by_cases hc : (sh && hd) = true
  · cases r <;>
      simp [setupIndicator, hc, refreshLines, List.filter_append,
        Op.isRsiRelated, Op.title, hti, (allocScale_ops ti pf c).1]
  · have hc' : (sh && hd) = false := by simpa using hc
    cases r <;>
      simp [setupIndicator, hc', removeLines, List.filter_append,
        Op.isRsiRelated, Op.title, hti]

/-- With RSI toggled off while its series and both threshold lines are
live, `setupIndicator` removes the two price lines first, then the
series, and clears all three ref cells. -/
lemma setupIndicator_rsi_teardown (hd : Bool) (ti : String) (pf : Axis)
    (h0 l1 l2 : ℕ) (c : Ctx) :
    setupIndicator false hd ti pf (some h0)
        [("70", some l1), ("30", some l2)] c =
      (none, [("70", none), ("30", none)],
        { c with ops := c.ops ++ [Op.removeLine "70" l1,
          Op.removeLine "30" l2, Op.removeSeries ti h0] }) := by
  simp [setupIndicator, removeLines]

lemma setupIndicator_rsi_create (ti : String) (pf : Axis) (c : Ctx) :
    setupIndicator true true ti pf none [("70", none), ("30", none)] c =
      (some c.nextId,
        [("70", some (c.nextId + 1)), ("30", some (c.nextId + 2))],
        { (allocScale ti pf c).2 with
          nextId := c.nextId + 1 + 1 + 1
          ops := c.ops ++ [Op.createSeries ti c.nextId (allocScale ti pf c).1,
            Op.setData ti c.nextId, Op.createLine "70" (c.nextId + 1),
            Op.createLine "30" (c.nextId + 2)] }) := by
  have ho := (allocScale_ops ti pf c).1
  have hn := (allocScale_ops ti pf c).2
  simp [setupIndicator, refreshLines, ho, hn]

/-- The shape of a drawing-surface call with the numeric handles and the
axis erased: which operation, on which title. -/
inductive OpKind where
  | createSeriesK : String → OpKind
  | applyScaleK : String → OpKind
  | setDataK : String → OpKind
  | removeSeriesK : String → OpKind
  | createLineK : String → OpKind
  | removeLineK : String → OpKind
deriving DecidableEq, Repr

/-- Erase handles and axes from a call, keeping its kind and title. -/
def Op.kind : Op → OpKind
  | .createSeries t _ _ => .createSeriesK t
  | .applyScale t _ _ => .applyScaleK t
  | .setData t _ => .setDataK t
  | .removeSeries t _ => .removeSeriesK t
  | .createLine t _ => .createLineK t
  | .removeLine t _ => .removeLineK t

/-- With RSI toggled (back) on, its ref cells empty, and data present,
`setupIndicator` — run after any earlier blocks, on any context —
creates exactly one RSI series handle and exactly two price lines, and
its drawing-surface calls are one series creation, one `setData` and two
`createPriceLine`s. -/
lemma runPass_rsi_on (data : List ProcessedChartData) (t' : Toggles)
    (s1 : IndicatorRefs)
    (hshow : t'.showRSI = true)
    (hdata : (data.any fun d => d.rsi.isSome) = true)
    (hr : s1.rsiSeries = none)
    (ho : s1.rsiOverboughtLine = none)
    (hs : s1.rsiOversoldLine = none) :
    ((runPass data t' s1).1.rsiSeries).isSome = true ∧
    ((runPass data t' s1).1.rsiOverboughtLine).isSome = true ∧
    ((runPass data t' s1).1.rsiOversoldLine).isSome = true ∧
    (((runPass data t' s1).2).filter Op.isRsiRelated).map Op.kind =
      [OpKind.createSeriesK "RSI", OpKind.setDataK "RSI",
        OpKind.createLineK "70", OpKind.createLineK "30"] := by
  have hA : (("ADX" : String) == "RSI" || ("ADX" : String) == "70" ||
      ("ADX" : String) == "30") = false := by decide
  have hT : (("ATR" : String) == "RSI" || ("ATR" : String) == "70" ||
      ("ATR" : String) == "30") = false := by decide
  simp only [runPass, hshow, hdata, hr, ho, hs]
  rw [setupIndicator_rsi_create]
  refine ⟨rfl, rfl, rfl, ?_⟩
  rw [setupIndicator_filter_rsi_noLines _ _ _ _ _ _ hT,
    setupIndicator_filter_rsi_noLines _ _ _ _ _ _ hA]
  simp [macdBlock_filter_rsi, List.filter_append, Op.isRsiRelated,
    Op.title, Op.kind]

/-- `C5`: toggling the RSI family off while it is visible (live series
handle and both threshold annotations) removes the two threshold
annotations first and then the series — the pass's RSI-related
drawing-surface calls are exactly `removePriceLine(70)`,
`removePriceLine(30)`, `removeSeries(RSI)` in that order — leaving zero
RSI handles and zero annotations; toggling RSI back on with the same
(non-empty) data creates exactly one new RSI series handle and exactly
two annotations: the RSI-related calls of that pass are exactly one
series creation, one `setData` and two `createPriceLine`s. -/
theorem C5_rsi_toggle_off_then_on (data : List ProcessedChartData)
    (t : Toggles) (s : IndicatorRefs) (h0 l1 l2 : ℕ)
    (hrsi : s.rsiSeries = some h0)
    (hob : s.rsiOverboughtLine = some l1)
    (hos : s.rsiOversoldLine = some l2)
    (hoff : t.showRSI = false)
    (hdata : (data.any fun d => d.rsi.isSome) = true) :
    ((runPass data t s).2).filter Op.isRsiRelated =
      [Op.removeLine "70" l1, Op.removeLine "30" l2,
        Op.removeSeries "RSI" h0] ∧
    (runPass data t s).1.rsiSeries = none ∧
    (runPass data t s).1.rsiOverboughtLine = none ∧
    (runPass data t s).1.rsiOversoldLine = none ∧
    ((((runPass data { t with showRSI := true }
          (runPass data t s).1).2).filter Op.isRsiRelated).map Op.kind =
        [OpKind.createSeriesK "RSI", OpKind.setDataK "RSI",
          OpKind.createLineK "70", OpKind.createLineK "30"] ∧
      ((runPass data { t with showRSI := true }
          (runPass data t s).1).1.rsiSeries).isSome = true ∧
      ((runPass data { t with showRSI := true }
          (runPass data t s).1).1.rsiOverboughtLine).isSome = true ∧
      ((runPass data { t with showRSI := true }
          (runPass data t s).1).1.rsiOversoldLine).isSome = true) := by
  have hA : (("ADX" : String) == "RSI" || ("ADX" : String) == "70" ||
      ("ADX" : String) == "30") = false := by decide
  have hT : (("ATR" : String) == "RSI" || ("ATR" : String) == "70" ||
      ("ATR" : String) == "30") = false := by decide
  have hb2 : (runPass data t s).1.rsiSeries = none := by
    simp only [runPass, hoff, hrsi, hob, hos]
    rw [setupIndicator_rsi_teardown]
  have hb3 : (runPass data t s).1.rsiOverboughtLine = none := by
    simp only [runPass, hoff, hrsi, hob, hos]
    rw [setupIndicator_rsi_teardown]
    simp [getLineRef]
  have hb4 : (runPass data t s).1.rsiOversoldLine = none := by
    simp only [runPass, hoff, hrsi, hob, hos]
    rw [setupIndicator_rsi_teardown]
    rfl
  refine ⟨?_, hb2, hb3, hb4, ?_⟩
  · simp only [runPass, hoff, hrsi, hob, hos]
    rw [setupIndicator_rsi_teardown]
    rw [setupIndicator_filter_rsi_noLines _ _ _ _ _ _ hT,
      setupIndicator_filter_rsi_noLines _ _ _ _ _ _ hA]
    simp [macdBlock_filter_rsi, List.filter_append, Op.isRsiRelated,
      Op.title]
  · obtain ⟨h1, h2, h3, h4⟩ := runPass_rsi_on data
      { t with showRSI := true } (runPass data t s).1 rfl hdata hb2 hb3 hb4
    exact ⟨h4, h1, h2, h3⟩

/-- The spec's scenario data: RSI visible with points
`[{t:1,v:50},{t:2,v:55}]`. -/
def rsiScenarioData : List ProcessedChartData :=
  [{ nanRow with time := 1, ma := none, rsi := some (.num 50) },
   { nanRow with time := 2, ma := none, rsi := some (.num 55) }]

/-- The ref cells after one pass with only RSI visible, from an empty
chart: series handle 0, threshold lines 1 and 2. -/
def rsiScenarioRefs : IndicatorRefs :=
  (runPass rsiScenarioData ⟨false, true, false, false⟩ emptyRefs).1

/-- Witness for `C5_rsi_toggle_off_then_on` on the spec's scenario. -/
theorem C5_rsi_toggle_off_then_on_witness :
    ((runPass rsiScenarioData ⟨false, false, false, false⟩
        rsiScenarioRefs).2).filter Op.isRsiRelated =
      [Op.removeLine "70" 1, Op.removeLine "30" 2,
        Op.removeSeries "RSI" 0] :=
  (C5_rsi_toggle_off_then_on rsiScenarioData ⟨false, false, false, false⟩
    rsiScenarioRefs 0 1 2 (by decide) (by decide) (by decide) rfl
    (by decide)).1

/-! ## Stale async responses (claim C9)

Two code paths receive asynchronous market data.  The WebSocket hook
keyed by `pairSymbol` guards its `kline_with_indicators` messages with
`message.symbol.toUpperCase() === pairSymbol.toUpperCase()` and ignores
mismatches.  The one-shot historical fetch `loadKlinesData` of
`DashboardPage` applies its response via `setKlineData(formattedData)`
with no such guard. -/

/-- JavaScript's `String.prototype.toUpperCase()` on the ASCII symbol
names used here: uppercase each character. -/
def jsToUpper (s : String) : String := ⟨s.data.map Char.toUpper⟩

/-- A WebSocket market-data message, restricted to the fields the
`onmessage` handler reads. -/
structure MarketDataMessage where
  type : String
  symbol : String
  klines : Option (List Kline)
  indicators : Option IndicatorData
deriving DecidableEq, Repr

/-- The kline/indicator part of the WebSocket hook state (the handler
also stamps `lastMessageTimestamp: Date.now()`, a wall-clock read not
modelled here). -/
structure WSHookState where
  klines : List Kline
  indicators : Option IndicatorData
deriving DecidableEq, Repr

/-- The symbol-guard logic of the hook's `webSocketRef.current.onmessage`:
a `kline_with_indicators` message whose symbol matches the subscribed
pair (case-insensitively) replaces the market data with
`message.klines || []` and `message.indicators || null`; a message for a
different symbol, or of another type, leaves the market-data state
unchanged (it is only logged). -/
def wsOnMessage (pairSymbol : String) (msg : MarketDataMessage)
    (st : WSHookState) : WSHookState :=
  if msg.type = "kline_with_indicators" then
    if jsToUpper msg.symbol = jsToUpper pairSymbol then
      { klines := msg.klines.getD [], indicators := msg.indicators }
    else st
  else st

/-- The selection and chart state of `DashboardPage` relevant to the
historical fetch. -/
structure DashboardState where
  symbol : String
  selectedInterval : String
  klineData : List CandlePoint
deriving DecidableEq, Repr

/-- The resolution of `loadKlinesData`'s fetch promise: the symbol and
interval captured when the request was issued arrive back with the
response, but the handler calls `setKlineData(formattedData)`
unconditionally — it never compares the request's parameters with the
currently selected ones. -/
def loadKlinesResolve (_requestSymbol _requestInterval : String)
    (rawData : List ApiKlineData) (st : DashboardState) :
    DashboardState :=
  { st with klineData := loadKlinesFormat rawData }

/-- `C9` counterexample: the claim says a stale historical-fetch response
is discarded on arrival when the selection has changed mid-flight, but
`loadKlinesData` has no such guard — a response requested for
`BTCUSDT/1h` is applied to state even though the selection is now
`ETHUSDT/5m`. -/
theorem C9_stale_fetch_applied_counterexample :
    (loadKlinesResolve "BTCUSDT" "1h" [⟨60000, 1, 2, 0, 1⟩]
        { symbol := "ETHUSDT", selectedInterval := "5m",
          klineData := [] }).klineData =
      [⟨60, 1, 2, 0, 1⟩] ∧
    (loadKlinesResolve "BTCUSDT" "1h" [⟨60000, 1, 2, 0, 1⟩]
        { symbol := "ETHUSDT", selectedInterval := "5m",
          klineData := [] }).symbol = "ETHUSDT" := by
  refine ⟨?_, rfl⟩
  simp [loadKlinesResolve, loadKlinesFormat, mapKlineToCandlestick]
  norm_num

/-- `C9` (amended): the stale-response guard exists only on the live
WebSocket path — a `kline_with_indicators` message whose symbol differs
(case-insensitively) from the subscribed pair is silently discarded, as
is any other message type, while a matching message is applied; the
one-shot historical fetch has no guard: its response is applied to the
kline state on arrival regardless of the currently selected
symbol/interval (which it leaves untouched). -/
theorem C9_ws_guard_fetch_unguarded (pairSymbol : String)
    (msg : MarketDataMessage) (st : WSHookState)
    (req reqI : String) (raw : List ApiKlineData)
    (dst : DashboardState) :
    (msg.type = "kline_with_indicators" →
        jsToUpper msg.symbol ≠ jsToUpper pairSymbol →
        wsOnMessage pairSymbol msg st = st) ∧
    (msg.type ≠ "kline_with_indicators" →
        wsOnMessage pairSymbol msg st = st) ∧
    (msg.type = "kline_with_indicators" →
        jsToUpper msg.symbol = jsToUpper pairSymbol →
        wsOnMessage pairSymbol msg st =
          { klines := msg.klines.getD [], indicators := msg.indicators }) ∧
    (loadKlinesResolve req reqI raw dst).klineData =
      loadKlinesFormat raw ∧
    (loadKlinesResolve req reqI raw dst).symbol = dst.symbol ∧
    (loadKlinesResolve req reqI raw dst).selectedInterval =
      dst.selectedInterval := by
  refine ⟨?_, ?_, ?_, rfl, rfl, rfl⟩
  · intro ht hs
    simp [wsOnMessage, ht, hs]
  · intro ht
    simp [wsOnMessage, ht]
  · intro ht hs
    simp [wsOnMessage, ht, hs]

/-- Witness for `C9_ws_guard_fetch_unguarded`: a message for `ethusdt`
arriving while subscribed to `BTCUSDT` leaves the state unchanged. -/
theorem C9_ws_guard_fetch_unguarded_witness :
    wsOnMessage "BTCUSDT"
      { type := "kline_with_indicators", symbol := "ethusdt",
        klines := some [⟨0, 1, 1, 1, 1⟩], indicators := none }
      { klines := [], indicators := none } =
      { klines := [], indicators := none } :=
  (C9_ws_guard_fetch_unguarded "BTCUSDT"
    { type := "kline_with_indicators", symbol := "ethusdt",
      klines := some [⟨0, 1, 1, 1, 1⟩], indicators := none }
    { klines := [], indicators := none } "BTCUSDT" "1h" []
    { symbol := "BTCUSDT", selectedInterval := "1h",
      klineData := [] }).1 rfl (by decide)

/-! ## Viewport Synchronizer (claim C4)

The two-pane chart subscribes `syncMainToIndicator` to the main pane's
visible-logical-range changes and `syncIndicatorToMain` to the indicator
pane's; both handlers are wrapped in a 20 ms debounce, share the
`syncLock` re-entrancy ref, and clear it with `setTimeout(..., 0)`.
The model is a discrete-time event loop: `setTimeout` queues a task with
an absolute due time; tasks run earliest-due first (FIFO among ties);
a pane's subscriber fires synchronously when `setVisibleLogicalRange`
actually changes its range. -/

/-- A visible logical range of a time scale (`from` is a Lean keyword,
hence the field names). -/
structure LogicalRange where
  from_ : ℤ
  to_ : ℤ
deriving DecidableEq, Repr

/-- The two chart panes. -/
inductive Pane where
  | main : Pane
  | indicator : Pane
deriving DecidableEq, Repr

/-- The opposite pane. -/
def Pane.other : Pane → Pane
  | .main => .indicator
  | .indicator => .main

/-- A pending timer: the debounced body of the sync handler subscribed
to `Pane`'s range changes (carrying the delivered range), or the
zero-delay `syncLock` clear. -/
inductive Task where
  | syncBody : Pane → LogicalRange → Task
  | unlock : Task
deriving DecidableEq, Repr

/-- The synchronizer state: the panes' visible ranges, the `syncLock`
ref, the timer queue (absolute due time, task), the current time, and
the log of every range a sync handler has pushed to a pane. -/
structure SyncState where
  mainRange : Option LogicalRange
  indicatorRange : Option LogicalRange
  syncLock : Bool
  tasks : List (ℕ × Task)
  now : ℕ
  applied : List (Pane × LogicalRange)
deriving DecidableEq, Repr

/-- The visible range of a pane. -/
def getRange (p : Pane) (s : SyncState) : Option LogicalRange :=
  match p with
  | .main => s.mainRange
  | .indicator => s.indicatorRange

/-- Store a pane's visible range. -/
def setRangeField (p : Pane) (r : LogicalRange) (s : SyncState) :
    SyncState :=
  match p with
  | .main => { s with mainRange := some r }
  | .indicator => { s with indicatorRange := some r }

/-- `setTimeout(fn, delay)`: queue a task `delay` ms from now. -/
def schedule (delay : ℕ) (t : Task) (s : SyncState) : SyncState :=
  { s with tasks := s.tasks ++ [(s.now + delay, t)] }

/-- The debounce wrapper around a sync handler: a new event for the same
handler clears the handler's pending body (`clearTimeout`) and schedules
a fresh one 20 ms out. -/
def debounceSchedule (src : Pane) (r : LogicalRange) (s : SyncState) :
    SyncState :=
  let cleared := s.tasks.filter (fun q =>
    match q.2 with
    | .syncBody p _ => !(p == src)
    | .unlock => true)
  { s with tasks := cleared ++ [(s.now + 20, Task.syncBody src r)] }

/-- `timeScale.setVisibleLogicalRange(range)` on pane `p`: when invoked
by a sync handler the pushed range is logged; if the range actually
changes, store it and fire the pane's subscriber — the debounced sync
handler — synchronously; setting the range it already has fires no
event. -/
def setVisibleLogicalRange (p : Pane) (r : LogicalRange)
    (byHandler : Bool) (s : SyncState) : SyncState :=
  let s0 := if byHandler then { s with applied := s.applied ++ [(p, r)] }
    else s
  if getRange p s = some r then s0
  else debounceSchedule p r (setRangeField p r s0)

/-- The body of `syncMainToIndicator` (run after its 20 ms debounce):
`if (syncLock.current) return; if (range && indicatorChartRef.current) {
syncLock.current = true; indicatorTimeScale.setVisibleLogicalRange(range);
setTimeout(() => syncLock.current = false, 0); }` — the chart refs are
alive while the component is mounted, and the delivered range is
non-null. -/
def syncMainToIndicatorBody (r : LogicalRange) (s : SyncState) :
    SyncState :=
  if s.syncLock then s
  else
    schedule 0 Task.unlock
      (setVisibleLogicalRange .indicator r true { s with syncLock := true })

/-- The body of `syncIndicatorToMain`, the symmetric handler: the same
guarded pattern, applying the range to the main pane. -/
def syncIndicatorToMainBody (r : LogicalRange) (s : SyncState) :
    SyncState :=
  if s.syncLock then s
  else
    schedule 0 Task.unlock
      (setVisibleLogicalRange .main r true { s with syncLock := true })

/-- Execute a due task. -/
def execTask : Task → SyncState → SyncState
  | .unlock, s => { s with syncLock := false }
  | .syncBody .main r, s => syncMainToIndicatorBody r s
  | .syncBody .indicator r, s => syncIndicatorToMainBody r s

/-- The earliest due time in the queue. -/
def dueMin : List (ℕ × Task) → Option ℕ
  | [] => none
  | (d, _) :: rest =>
    match dueMin rest with
    | none => some d
    | some m => some (min d m)

/-- Remove the first task due at time `d`, keeping queue order. -/
def takeFirstAt (d : ℕ) : List (ℕ × Task) →
    Option (Task × List (ℕ × Task))
  | [] => none
  | (d', t) :: rest =>
    if d' = d then some (t, rest)
    else
      match takeFirstAt d rest with
      | none => none
      | some (t', rest') => some (t', (d', t) :: rest')

/-- Run the earliest-due task (FIFO among equal due times), advancing
the clock to its due time. -/
def runNext (s : SyncState) : SyncState :=
  match dueMin s.tasks with
  | none => s
  | some d =>
    match takeFirstAt d s.tasks with
    | none => s
    | some (t, rest) =>
      execTask t { s with tasks := rest, now := max s.now d }

/-- Run the event loop until the timer queue is empty (or the fuel runs
out). -/
def run : ℕ → SyncState → SyncState
  | 0, s => s
  | fuel + 1, s => if s.tasks = [] then s else run fuel (runNext s)

/-- A user pan/zoom gesture on pane `p`: the chart library changes the
pane's visible range and fires its range-change subscriber. -/
def userRangeChange (p : Pane) (r : LogicalRange) (s : SyncState) :
    SyncState :=
  setVisibleLogicalRange p r false s

/-- A quiescent synchronizer: no pending timers, lock clear. -/
def quiescent (mr ir : Option LogicalRange) : SyncState :=
  { mainRange := mr, indicatorRange := ir, syncLock := false,
    tasks := [], now := 0, applied := [] }

/-- The system after a user range change on pane `p` from a quiescent
state, run to completion. -/
def syncRunFrom (p : Pane) (r : LogicalRange)
    (mr ir : Option LogicalRange) : SyncState :=
  run 10 (userRangeChange p r (quiescent mr ir))

/-- `C4`: after a user-initiated visible-range change to `r` on either
pane of a quiescent synchronizer, the event loop quiesces with both
panes at the identical range `r` and the lock cleared; every range a
sync handler pushed to a pane during the episode equals `r` — the event
induced on the second pane never propagates a different update back to
the first (no ping-pong) — and a sync-handler body that fires while the
re-entrancy flag is set is ignored outright; the two directions behave
symmetrically (the statement is quantified over the source pane). -/
theorem C4_viewport_sync (p : Pane) (r : LogicalRange)
    (mr ir : Option LogicalRange)
    (hchange : getRange p (quiescent mr ir) ≠ some r) :
    (syncRunFrom p r mr ir).tasks = [] ∧
    (syncRunFrom p r mr ir).mainRange = some r ∧
    (syncRunFrom p r mr ir).indicatorRange = some r ∧
    (syncRunFrom p r mr ir).syncLock = false ∧
    (∀ q ∈ (syncRunFrom p r mr ir).applied, q.2 = r) ∧
    (∀ (s : SyncState) (src : Pane) (r' : LogicalRange),
        s.syncLock = true → execTask (Task.syncBody src r') s = s) := by
  have hguard : ∀ (s : SyncState) (src : Pane) (r' : LogicalRange),
      s.syncLock = true → execTask (Task.syncBody src r') s = s := by
    intro s src r' hl
    cases src <;>
      simp [execTask, syncMainToIndicatorBody, syncIndicatorToMainBody, hl]
  cases p with
  | main =>
    have hmr : ¬ mr = some r := by
      simpa [getRange, quiescent] using hchange
    by_cases hir : ir = some r
    · refine ⟨?_, ?_, ?_, ?_, ?_, hguard⟩ <;>
        simp [syncRunFrom, userRangeChange, setVisibleLogicalRange,
          getRange, setRangeField, quiescent, hmr, hir, debounceSchedule,
          schedule, run, runNext, dueMin, takeFirstAt, execTask,
          syncMainToIndicatorBody, syncIndicatorToMainBody]
    · refine ⟨?_, ?_, ?_, ?_, ?_, hguard⟩ <;>
        simp [syncRunFrom, userRangeChange, setVisibleLogicalRange,
          getRange, setRangeField, quiescent, hmr, hir, debounceSchedule,
          schedule, run, runNext, dueMin, takeFirstAt, execTask,
          syncMainToIndicatorBody, syncIndicatorToMainBody]
  | indicator =>
    have hir : ¬ ir = some r := by
      simpa [getRange, quiescent] using hchange
    by_cases hmr : mr = some r
    · refine ⟨?_, ?_, ?_, ?_, ?_, hguard⟩ <;>
        simp [syncRunFrom, userRangeChange, setVisibleLogicalRange,
          getRange, setRangeField, quiescent, hmr, hir, debounceSchedule,
          schedule, run, runNext, dueMin, takeFirstAt, execTask,
          syncMainToIndicatorBody, syncIndicatorToMainBody]
    · refine ⟨?_, ?_, ?_, ?_, ?_, hguard⟩ <;>
        simp [syncRunFrom, userRangeChange, setVisibleLogicalRange,
          getRange, setRangeField, quiescent, hmr, hir, debounceSchedule,
          schedule, run, runNext, dueMin, takeFirstAt, execTask,
          syncMainToIndicatorBody, syncIndicatorToMainBody]

/-- Witness for `C4_viewport_sync`: a pan to `[0, 100]` on the main pane
of a fresh chart leaves both panes at `[0, 100]`. -/
theorem C4_viewport_sync_witness :
    (syncRunFrom .main ⟨0, 100⟩ none none).mainRange = some ⟨0, 100⟩ ∧
    (syncRunFrom .main ⟨0, 100⟩ none none).indicatorRange =
      some ⟨0, 100⟩ :=
  ⟨(C4_viewport_sync .main ⟨0, 100⟩ none none (by decide)).2.1,
   (C4_viewport_sync .main ⟨0, 100⟩ none none (by decide)).2.2.1⟩

end ChartVerify
